import Mathlib

/-!
# Verification of the stock-dashboard backtest engine

Shallow embedding of the computational core of `src/stock.py`: the
moving-average crossover backtest pipeline (lines 36-41 and 68-87).
Prices are modelled as a list of rationals (daily close prices); every
pandas series of the pipeline becomes an index-function on ℕ, with
`Option ℚ` for series that contain NaN entries (a `none` is a NaN /
undefined entry).  Pandas semantics that matter and are modelled
faithfully:

* `rolling(window=w).mean()` is `none` for the first `w - 1` indices;
* `Series.diff()` is `none` at index 0;
* `Series.where(cond, 0)` replaces both `False` and NaN positions by 0,
  so the NaN leading delta of `calculate_rsi` becomes a 0 gain/loss;
* comparisons against NaN (`np.where(a > b, ...)`, `RSI < limit`) are
  `False`;
* `fillna(0)` maps `none` to 0;
* arithmetic with a NaN operand is NaN (`Signal.shift(1) * Market_Ret`
  is `none` at index 0).
-/

namespace Stock

/-- Closing price at index `i` of the price series (0 outside the series;
theorems only quantify over in-range indices). -/
def close (prices : List ℚ) (i : ℕ) : ℚ := prices.getD i 0

/-- Pandas `rolling(window=w).mean()` over a total (NaN-free) series `xs`:
the trailing arithmetic mean of `xs (i-w+1), …, xs i`, undefined (`none`)
for the first `w - 1` indices. -/
def rollingMean (xs : ℕ → ℚ) (w i : ℕ) : Option ℚ :=
  if 1 ≤ w ∧ w ≤ i + 1 then
    some ((∑ j ∈ Finset.range w, xs (i + 1 - w + j)) / (w : ℚ))
  else none

/-- User parameters of the sidebar: MA window pair, friction cost,
RSI filter toggle and ceiling, starting capital. -/
structure Params where
  short_p : ℕ
  long_p : ℕ
  cost_pct : ℚ
  use_rsi : Bool
  rsi_limit : ℚ
  initial_capital : ℚ

/-- `df['Short_MA'] = df['Close'].rolling(window=short_p).mean()`. -/
def Short_MA (prices : List ℚ) (p : Params) (i : ℕ) : Option ℚ :=
  rollingMean (close prices) p.short_p i

/-- `df['Long_MA'] = df['Close'].rolling(window=long_p).mean()`. -/
def Long_MA (prices : List ℚ) (p : Params) (i : ℕ) : Option ℚ :=
  rollingMean (close prices) p.long_p i

/-- `delta = data.diff()`: the backward difference, NaN at index 0.
Here the value at index 0 is irrelevant because `gainIn`/`lossIn` replace
it by 0, exactly as `delta.where(...)` does with the NaN entry. -/
def delta (prices : List ℚ) (i : ℕ) : ℚ :=
  close prices i - close prices (i - 1)

/-- `delta.where(delta > 0, 0)`: the positive part of the delta, with the
NaN entry at index 0 mapped to 0 (pandas `where` replaces NaN positions,
since `NaN > 0` is `False`). -/
def gainIn (prices : List ℚ) (i : ℕ) : ℚ :=
  if i = 0 then 0 else max (delta prices i) 0

/-- `-delta.where(delta < 0, 0)`: the negative part of the delta negated,
with the NaN entry at index 0 mapped to 0. -/
def lossIn (prices : List ℚ) (i : ℕ) : ℚ :=
  if i = 0 then 0 else max (-delta prices i) 0

/-- `gain = (delta.where(delta > 0, 0)).rolling(window=window).mean()`. -/
def gain (prices : List ℚ) (w i : ℕ) : Option ℚ :=
  rollingMean (gainIn prices) w i

/-- `loss = (-delta.where(delta < 0, 0)).rolling(window=window).mean()`. -/
def loss (prices : List ℚ) (w i : ℕ) : Option ℚ :=
  rollingMean (lossIn prices) w i

/-- `calculate_rsi(data, window=14)`:
`rs = gain / (loss + 1e-9); return 100 - (100 / (1 + rs))`,
undefined exactly where `gain`/`loss` are undefined. -/
def calculate_rsi (prices : List ℚ) (w i : ℕ) : Option ℚ :=
  match gain prices w i, loss prices w i with
  | some g, some l => some (100 - 100 / (1 + g / (l + 1 / 1000000000)))
  | _, _ => none

/-- Elementwise `a > b` on NaN-able values: `False` whenever either side
is NaN, as in `np.where(df['Short_MA'] > df['Long_MA'], 1, 0)`. -/
def optGt (a b : Option ℚ) : Bool :=
  match a, b with
  | some x, some y => decide (y < x)
  | _, _ => false

/-- Elementwise `a < c` against a NaN-able left side: `False` when the
left side is NaN, as in `df['RSI'] < rsi_limit`. -/
def optLt (a : Option ℚ) (c : ℚ) : Bool :=
  match a with
  | some x => decide (x < c)
  | none => false

/-- `df['MA_Signal'] = np.where(df['Short_MA'] > df['Long_MA'], 1, 0)`. -/
def MA_Signal (prices : List ℚ) (p : Params) (i : ℕ) : ℚ :=
  if optGt (Short_MA prices p i) (Long_MA prices p i) then 1 else 0

/-- `df['Signal'] = np.where((df['MA_Signal'] == 1) & (df['RSI'] < rsi_limit), 1, 0)
if use_rsi else df['MA_Signal']`; the RSI column is `calculate_rsi(df['Close'])`
with its default window of 14. -/
def Signal (prices : List ℚ) (p : Params) (i : ℕ) : ℚ :=
  if p.use_rsi then
    (if MA_Signal prices p i = 1 ∧ optLt (calculate_rsi prices 14 i) p.rsi_limit = true
      then 1 else 0)
  else MA_Signal prices p i

/-- `sig.diff().fillna(0).abs()` for an arbitrary signal column `sig`:
0 at index 0 (the NaN diff filled with 0), `|sig i - sig (i-1)|` after. -/
def tradeOf (sig : ℕ → ℚ) (i : ℕ) : ℚ :=
  if i = 0 then 0 else |sig i - sig (i - 1)|

/-- `df['Trade'] = df['Signal'].diff().fillna(0).abs()`. -/
def Trade (prices : List ℚ) (p : Params) (i : ℕ) : ℚ :=
  tradeOf (Signal prices p) i

/-- `df['Market_Ret'] = df['Close'].pct_change()`: NaN at index 0,
`price[i]/price[i-1] - 1` after. -/
def Market_Ret (prices : List ℚ) (i : ℕ) : Option ℚ :=
  if i = 0 then none
  else some (close prices i / close prices (i - 1) - 1)

/-- `(sig.shift(1) * df['Market_Ret']) - (trade * cost)` for an arbitrary
signal column `sig` and its derived trade column: NaN (at index 0, where
`shift(1)` and `pct_change` are NaN) propagates through the product and
the subtraction. -/
def stratRetOf (prices : List ℚ) (sig : ℕ → ℚ) (cost : ℚ) (i : ℕ) : Option ℚ :=
  match (if i = 0 then (none : Option ℚ) else some (sig (i - 1))), Market_Ret prices i with
  | some s, some m => some (s * m - tradeOf sig i * cost)
  | _, _ => none

/-- `df['Strat_Ret'] = (df['Signal'].shift(1) * df['Market_Ret']) - (df['Trade'] * cost_pct)`. -/
def Strat_Ret (prices : List ℚ) (p : Params) (i : ℕ) : Option ℚ :=
  stratRetOf prices (Signal prices p) p.cost_pct i

/-- `fillna(0)`: a NaN entry becomes 0. -/
def fillna0 : Option ℚ → ℚ
  | some x => x
  | none => 0

/-- `df['Acc_Strat'] = initial_capital * (1 + df['Strat_Ret'].fillna(0)).cumprod()`. -/
def Acc_Strat (prices : List ℚ) (p : Params) (i : ℕ) : ℚ :=
  p.initial_capital * ∏ j ∈ Finset.range (i + 1), (1 + fillna0 (Strat_Ret prices p j))

/-- `df['Acc_Market'] = initial_capital * (1 + df['Market_Ret'].fillna(0)).cumprod()`. -/
def Acc_Market (prices : List ℚ) (p : Params) (i : ℕ) : ℚ :=
  p.initial_capital * ∏ j ∈ Finset.range (i + 1), (1 + fillna0 (Market_Ret prices j))

/-- `df['Peak'] = df['Acc_Strat'].cummax()`: the running maximum. -/
def Peak (prices : List ℚ) (p : Params) : ℕ → ℚ
  | 0 => Acc_Strat prices p 0
  | i + 1 => max (Peak prices p i) (Acc_Strat prices p (i + 1))

/-- `df['DD'] = (df['Acc_Strat'] - df['Peak']) / df['Peak']`. -/
def DD (prices : List ℚ) (p : Params) (i : ℕ) : ℚ :=
  (Acc_Strat prices p i - Peak prices p i) / Peak prices p i

/-- Materialize the first `n` entries of an index-function as a list,
as the dataframe columns are materialized over the index of `df`. -/
def seriesOf {α : Type} (n : ℕ) (f : ℕ → α) : List α :=
  (List.range n).map f

/-- All derived columns of the dataframe, one list per column, each
aligned one-to-one with the price series. -/
structure BacktestResult where
  short_ma : List (Option ℚ)
  long_ma : List (Option ℚ)
  rsi : List (Option ℚ)
  ma_signal : List ℚ
  signal : List ℚ
  trade : List ℚ
  market_ret : List (Option ℚ)
  strat_ret : List (Option ℚ)
  acc_strat : List ℚ
  acc_market : List ℚ
  peak : List ℚ
  dd : List ℚ

/-- The module pipeline of lines 68-87: guarded only by `if not df.empty:`
(nothing is computed for an empty price series; there is no other guard,
no parameter validation, and every derived column is produced in full
otherwise). -/
def run_backtest (prices : List ℚ) (p : Params) : Option BacktestResult :=
  if prices.isEmpty then none
  else some
    { short_ma := seriesOf prices.length (Short_MA prices p)
      long_ma := seriesOf prices.length (Long_MA prices p)
      rsi := seriesOf prices.length (calculate_rsi prices 14)
      ma_signal := seriesOf prices.length (MA_Signal prices p)
      signal := seriesOf prices.length (Signal prices p)
      trade := seriesOf prices.length (Trade prices p)
      market_ret := seriesOf prices.length (Market_Ret prices)
      strat_ret := seriesOf prices.length (Strat_Ret prices p)
      acc_strat := seriesOf prices.length (Acc_Strat prices p)
      acc_market := seriesOf prices.length (Acc_Market prices p)
      peak := seriesOf prices.length (Peak prices p)
      dd := seriesOf prices.length (DD prices p) }

/-- Default sidebar parameters: 5/20 MA, 0.2% cost, RSI filter on with
ceiling 70, capital 1,000,000. -/
def pDef : Params := ⟨5, 20, 1/500, true, 70, 1000000⟩

/-- An invalid parameter set in the sense of the spec: `short_p ≥ long_p`
and a negative cost rate. -/
def pBad : Params := ⟨20, 5, -1, true, 70, 1000000⟩

/-- A parameter set with a 1/2 MA pair and the RSI filter on, so that a
crossover signal can exist inside the RSI warm-up period. -/
def pW : Params := ⟨1, 2, 0, true, 70, 1000000⟩

/-! ## Helper lemmas -/

/-- The crossover column only holds 0 or 1. -/
theorem ma_signal_values (prices : List ℚ) (p : Params) (i : ℕ) :
    MA_Signal prices p i = 0 ∨ MA_Signal prices p i = 1 := by
  simp only [MA_Signal]
  split
  · right; rfl
  · left; rfl

/-- The signal column only holds 0 or 1 (`np.where` output). -/
theorem signal_values (prices : List ℚ) (p : Params) (i : ℕ) :
    Signal prices p i = 0 ∨ Signal prices p i = 1 := by
  simp only [Signal]
  split
  · split
    · right; rfl
    · left; rfl
  · exact ma_signal_values prices p i

/-- The elementwise `< limit` test succeeds exactly on a defined value
below the limit. -/
theorem optLt_iff (a : Option ℚ) (c : ℚ) :
    optLt a c = true ↔ ∃ r, a = some r ∧ r < c := by
  cases a <;> simp [optLt]

/-- The strategy return at index 0 is NaN (`shift(1)` has no prior row). -/
theorem stratRetOf_zero (prices : List ℚ) (sig : ℕ → ℚ) (cost : ℚ) :
    stratRetOf prices sig cost 0 = none := rfl

/-- The strategy account starts at the initial capital: the first return
is NaN and is filled with 0. -/
theorem Acc_Strat_zero (prices : List ℚ) (p : Params) :
    Acc_Strat prices p 0 = p.initial_capital := by
  simp [Acc_Strat, Strat_Ret, stratRetOf_zero, fillna0]

/-- A materialized column over `n` indices has length `n`. -/
theorem seriesOf_length {α : Type} (n : ℕ) (f : ℕ → α) :
    (seriesOf n f).length = n := by
  simp [seriesOf]

/-! ## Claim theorems -/

/-- C1: the per-period strategy return is undefined at index 0 and at every
later in-range index equals yesterday's signal times today's market return
minus the trade indicator times the cost rate; with a zero cost rate it is
exactly yesterday's signal times today's market return. -/
theorem strat_ret_formula (prices : List ℚ) (p : Params) (i : ℕ)
    (h1 : 1 ≤ i) (_h2 : i < prices.length) :
    Strat_Ret prices p 0 = none ∧
    (∃ m, Market_Ret prices i = some m ∧
      Strat_Ret prices p i =
        some (Signal prices p (i - 1) * m - Trade prices p i * p.cost_pct)) ∧
    (p.cost_pct = 0 →
      ∃ m, Market_Ret prices i = some m ∧
        Strat_Ret prices p i = some (Signal prices p (i - 1) * m)) := by
  have hi0 : i ≠ 0 := by omega
  have hm : Market_Ret prices i = some (close prices i / close prices (i - 1) - 1) := by
    simp [Market_Ret, hi0]
  have hs : Strat_Ret prices p i =
      some (Signal prices p (i - 1) * (close prices i / close prices (i - 1) - 1)
        - Trade prices p i * p.cost_pct) := by
    simp [Strat_Ret, stratRetOf, Market_Ret, Trade, hi0]
  refine ⟨rfl, ⟨_, hm, hs⟩, fun hc => ⟨_, hm, ?_⟩⟩
  rw [hs, hc, mul_zero, sub_zero]

/-- C1 witness at the two-day series `[100, 110]` and default parameters. -/
theorem strat_ret_formula_witness :
    1 ≤ 1 ∧ (Strat_Ret [100, 110] pDef 0 = none ∧
      (∃ m, Market_Ret [100, 110] 1 = some m ∧
        Strat_Ret [100, 110] pDef 1 =
          some (Signal [100, 110] pDef 0 * m - Trade [100, 110] pDef 1 * pDef.cost_pct)) ∧
      (pDef.cost_pct = 0 →
        ∃ m, Market_Ret [100, 110] 1 = some m ∧
          Strat_Ret [100, 110] pDef 1 = some (Signal [100, 110] pDef 0 * m))) :=
  ⟨le_refl 1, strat_ret_formula [100, 110] pDef 1 (le_refl 1) (by norm_num)⟩

/-- C2 counterexample: two signal columns that agree at index 0 and differ
at index 1 produce different strategy returns at index 1 under the default
0.2% cost rate — the trade-cost term reads the day-i signal through
`Trade i = |signal i - signal (i-1)|`. -/
theorem strat_ret_lookahead_cex :
    (fun _ : ℕ => (0 : ℚ)) 0 = (fun i : ℕ => if i = 1 then (1 : ℚ) else 0) 0 ∧
    stratRetOf [100, 110] (fun _ => 0) (1 / 500) 1 ≠
      stratRetOf [100, 110] (fun i => if i = 1 then 1 else 0) (1 / 500) 1 := by
  refine ⟨by norm_num, ?_⟩
  norm_num [stratRetOf, Market_Ret, tradeOf, close]

/-- C2 amended: the strategy return at index i is fully determined by the
prior signal, the market return, and the day-i trade indicator; two runs
whose signal columns agree at i-1 produce identical strategy returns at i
whenever the cost rate is 0, and in general their cost-adjusted gross
returns coincide (the dependence on the day-i signal is exactly the
trade-cost term). -/
theorem strat_ret_no_lookahead (prices : List ℚ) (cost : ℚ)
    (sigA sigB : ℕ → ℚ) (i : ℕ) (h1 : 1 ≤ i)
    (hprev : sigA (i - 1) = sigB (i - 1)) :
    (cost = 0 → stratRetOf prices sigA cost i = stratRetOf prices sigB cost i) ∧
    (stratRetOf prices sigA cost i).map (fun x => x + tradeOf sigA i * cost) =
      (stratRetOf prices sigB cost i).map (fun x => x + tradeOf sigB i * cost) := by
  have hi0 : i ≠ 0 := by omega
  have hA : stratRetOf prices sigA cost i =
      some (sigA (i - 1) * (close prices i / close prices (i - 1) - 1)
        - tradeOf sigA i * cost) := by
    simp [stratRetOf, Market_Ret, hi0]
  have hB : stratRetOf prices sigB cost i =
      some (sigB (i - 1) * (close prices i / close prices (i - 1) - 1)
        - tradeOf sigB i * cost) := by
    simp [stratRetOf, Market_Ret, hi0]
  constructor
  · intro hc
    rw [hA, hB, hprev, hc, mul_zero, mul_zero]
  · rw [hA, hB, hprev]
    simp only [Option.map]
    rw [Option.some.injEq]
    ring

/-- C2 amended witness: zero cost, two signal columns differing only at
index 1. -/
theorem strat_ret_no_lookahead_witness :
    stratRetOf [100, 110] (fun _ => 0) 0 1 =
      stratRetOf [100, 110] (fun i => if i = 1 then 1 else 0) 0 1 :=
  (strat_ret_no_lookahead [100, 110] 0 (fun _ => 0)
    (fun i => if i = 1 then 1 else 0) 1 (le_refl 1) (by norm_num)).1 rfl

/-- C4: the trade indicator is 0 at index 0 unconditionally, and at every
later index it is 1 exactly when the signal changed from the prior index. -/
theorem trade_rule (prices : List ℚ) (p : Params) (i : ℕ) (h1 : 1 ≤ i) :
    Trade prices p 0 = 0 ∧
    (Trade prices p i = 1 ↔ Signal prices p i ≠ Signal prices p (i - 1)) := by
  have hi0 : i ≠ 0 := by omega
  refine ⟨rfl, ?_⟩
  simp only [Trade, tradeOf, if_neg hi0]
  rcases signal_values prices p i with h | h <;>
    rcases signal_values prices p (i - 1) with h2 | h2 <;>
      simp only [h, h2] <;> norm_num

/-- C4 witness at the two-day series `[100, 110]` and default parameters. -/
theorem trade_rule_witness :
    1 ≤ 1 ∧ (Trade [100, 110] pDef 0 = 0 ∧
      (Trade [100, 110] pDef 1 = 1 ↔
        Signal [100, 110] pDef 1 ≠ Signal [100, 110] pDef 0)) :=
  ⟨le_refl 1, trade_rule [100, 110] pDef 1 (le_refl 1)⟩

/-- C10: with the RSI filter enabled, the filtered signal is 0 at every
index where the RSI is undefined (the RSI warm-up), whatever the crossover
signal and the ceiling are: the NaN comparison `RSI < limit` is false. -/
theorem signal_rsi_warmup (prices : List ℚ) (p : Params) (i : ℕ)
    (hu : p.use_rsi = true) (hr : calculate_rsi prices 14 i = none) :
    Signal prices p i = 0 := by
  simp [Signal, hu, hr, optLt]

/-- C10 witness: on `[1, 2]` with a 1/2 MA pair the crossover signal is 1
at index 1 while the RSI (window 14) is still undefined there, and the
filtered signal is indeed 0. -/
theorem signal_rsi_warmup_witness :
    pW.use_rsi = true ∧ calculate_rsi [1, 2] 14 1 = none ∧
    MA_Signal [1, 2] pW 1 = 1 ∧ Signal [1, 2] pW 1 = 0 :=
  ⟨rfl, by norm_num [calculate_rsi, gain, loss, rollingMean],
   by norm_num [MA_Signal, Short_MA, Long_MA, pW, optGt, rollingMean, close,
     Finset.sum_range_succ],
   signal_rsi_warmup [1, 2] pW 1 rfl
     (by norm_num [calculate_rsi, gain, loss, rollingMean])⟩

/-- C5: with the RSI filter enabled, the filtered signal is pointwise at
most the crossover signal, and equals 1 exactly where the crossover signal
is 1 and the RSI is defined and strictly below the ceiling: the filter can
only turn a long signal flat, never create one. -/
theorem signal_filter (prices : List ℚ) (p : Params) (i : ℕ)
    (h : p.use_rsi = true) :
    Signal prices p i ≤ MA_Signal prices p i ∧
    (Signal prices p i = 1 ↔
      (MA_Signal prices p i = 1 ∧
        ∃ r, calculate_rsi prices 14 i = some r ∧ r < p.rsi_limit)) := by
  have hopt := optLt_iff (calculate_rsi prices 14 i) p.rsi_limit
  simp only [Signal, h, if_true]
  constructor
  · split
    · rename_i hc
      rw [hc.1]
    · rcases ma_signal_values prices p i with h0 | h0 <;> rw [h0] <;> norm_num
  · split
    · rename_i hc
      exact ⟨fun _ => ⟨hc.1, hopt.mp hc.2⟩, fun _ => rfl⟩
    · rename_i hc
      constructor
      · intro h01
        exact absurd h01 (by norm_num)
      · rintro ⟨hma, hr⟩
        exact absurd ⟨hma, hopt.mpr hr⟩ hc

/-- C5 witness at the two-day series `[100, 110]` and default parameters. -/
theorem signal_filter_witness :
    pDef.use_rsi = true ∧
    (Signal [100, 110] pDef 1 ≤ MA_Signal [100, 110] pDef 1 ∧
      (Signal [100, 110] pDef 1 = 1 ↔
        (MA_Signal [100, 110] pDef 1 = 1 ∧
          ∃ r, calculate_rsi [100, 110] 14 1 = some r ∧ r < pDef.rsi_limit))) :=
  ⟨rfl, signal_filter [100, 110] pDef 1 rfl⟩

/-- C6: the strategy account obeys the compounding recurrence with the
initial capital conceptually preceding the series, equivalently the product
form; a NaN return contributes a factor of 1; while every return so far is
NaN or zero the account is flat at the initial capital; and the market
account obeys the same law over the market return. -/
theorem acc_strat_law (prices : List ℚ) (p : Params) (i : ℕ) (h1 : 1 ≤ i) :
    Acc_Strat prices p 0 = p.initial_capital ∧
    Acc_Strat prices p i =
      Acc_Strat prices p (i - 1) * (1 + fillna0 (Strat_Ret prices p i)) ∧
    Acc_Strat prices p i =
      p.initial_capital *
        ∏ j ∈ Finset.range (i + 1), (1 + fillna0 (Strat_Ret prices p j)) ∧
    (Strat_Ret prices p i = none → 1 + fillna0 (Strat_Ret prices p i) = 1) ∧
    ((∀ j, j ≤ i → Strat_Ret prices p j = none ∨ Strat_Ret prices p j = some 0) →
      Acc_Strat prices p i = p.initial_capital) ∧
    Acc_Market prices p i =
      Acc_Market prices p (i - 1) * (1 + fillna0 (Market_Ret prices i)) := by
  obtain ⟨k, rfl⟩ : ∃ k, i = k + 1 := ⟨i - 1, by omega⟩
  refine ⟨Acc_Strat_zero prices p, ?_, rfl, ?_, ?_, ?_⟩
  · simp only [Acc_Strat, Nat.add_sub_cancel, Finset.prod_range_succ, mul_assoc]
  · intro hn
    rw [hn]
    norm_num [fillna0]
  · intro hall
    rw [Acc_Strat, Finset.prod_eq_one, mul_one]
    intro j hj
    rcases hall j (by simpa using Nat.lt_succ_iff.mp (Finset.mem_range.mp hj)) with h | h
    · rw [h]
      norm_num [fillna0]
    · rw [h]
      norm_num [fillna0]
  · simp only [Acc_Market, Nat.add_sub_cancel, Finset.prod_range_succ, mul_assoc]

/-- C6 witness on the flat two-day series `[100, 100]` with zero cost:
both returns up to index 1 are NaN or zero and the account is flat. -/
theorem acc_strat_law_witness :
    1 ≤ 1 ∧ (Acc_Strat [100, 100] pW 0 = pW.initial_capital ∧
      Acc_Strat [100, 100] pW 1 =
        Acc_Strat [100, 100] pW 0 * (1 + fillna0 (Strat_Ret [100, 100] pW 1)) ∧
      Acc_Strat [100, 100] pW 1 =
        pW.initial_capital *
          ∏ j ∈ Finset.range 2, (1 + fillna0 (Strat_Ret [100, 100] pW j)) ∧
      (Strat_Ret [100, 100] pW 1 = none → 1 + fillna0 (Strat_Ret [100, 100] pW 1) = 1) ∧
      ((∀ j, j ≤ 1 → Strat_Ret [100, 100] pW j = none ∨ Strat_Ret [100, 100] pW j = some 0) →
        Acc_Strat [100, 100] pW 1 = pW.initial_capital) ∧
      Acc_Market [100, 100] pW 1 =
        Acc_Market [100, 100] pW 0 * (1 + fillna0 (Market_Ret [100, 100] 1))) :=
  ⟨le_refl 1, acc_strat_law [100, 100] pW 1 (le_refl 1)⟩

/-- The strategy account never exceeds its running maximum. -/
theorem acc_strat_le_peak (prices : List ℚ) (p : Params) (i : ℕ) :
    Acc_Strat prices p i ≤ Peak prices p i := by
  cases i with
  | zero => exact le_refl _
  | succ k => exact le_max_right _ _

/-- With positive initial capital the running maximum is positive: it
dominates the index-0 account value, which is the initial capital. -/
theorem peak_pos (prices : List ℚ) (p : Params) (i : ℕ)
    (hc : 0 < p.initial_capital) : 0 < Peak prices p i := by
  induction i with
  | zero =>
    show 0 < Acc_Strat prices p 0
    rw [Acc_Strat_zero]
    exact hc
  | succ k ih => exact lt_max_of_lt_left ih

/-- C7: under positive initial capital the drawdown is nonpositive at
every index and vanishes exactly where the strategy account equals its
running maximum (every new high). -/
theorem dd_nonpos (prices : List ℚ) (p : Params) (i : ℕ)
    (hc : 0 < p.initial_capital) :
    DD prices p i ≤ 0 ∧
    (DD prices p i = 0 ↔ Acc_Strat prices p i = Peak prices p i) := by
  have hpk := peak_pos prices p i hc
  have hle := acc_strat_le_peak prices p i
  constructor
  · exact div_nonpos_iff.mpr (Or.inr ⟨by linarith, le_of_lt hpk⟩)
  · rw [DD, div_eq_zero_iff]
    constructor
    · rintro (h | h)
      · linarith [sub_eq_zero.mp h]
      · linarith
    · intro h
      left
      rw [h, sub_self]

/-- C7 witness at index 0 of `[100, 110]` with default parameters. -/
theorem dd_nonpos_witness :
    (0 : ℚ) < pDef.initial_capital ∧
    (DD [100, 110] pDef 0 ≤ 0 ∧
      (DD [100, 110] pDef 0 = 0 ↔
        Acc_Strat [100, 110] pDef 0 = Peak [100, 110] pDef 0)) :=
  ⟨by norm_num [pDef], dd_nonpos [100, 110] pDef 0 (by norm_num [pDef])⟩

/-- A rolling mean of a pointwise-nonnegative series is nonnegative. -/
theorem rollingMean_nonneg (xs : ℕ → ℚ) (w i : ℕ) (v : ℚ)
    (hx : ∀ j, 0 ≤ xs j) (h : rollingMean xs w i = some v) : 0 ≤ v := by
  rw [rollingMean] at h
  split at h
  · rw [Option.some.injEq] at h
    rw [← h]
    exact div_nonneg (Finset.sum_nonneg fun j _ => hx _) (Nat.cast_nonneg w)
  · exact absurd h (by simp)

/-- The gain inputs of the RSI are nonnegative. -/
theorem gainIn_nonneg (prices : List ℚ) (j : ℕ) : 0 ≤ gainIn prices j := by
  rw [gainIn]
  split
  · exact le_refl 0
  · exact le_max_right _ _

/-- The loss inputs of the RSI are nonnegative. -/
theorem lossIn_nonneg (prices : List ℚ) (j : ℕ) : 0 ≤ lossIn prices j := by
  rw [lossIn]
  split
  · exact le_refl 0
  · exact le_max_right _ _

/-- C8: whenever the RSI is defined it equals `100 - 100/(1+rs)` for
`rs = gain/(loss + 1e-9)`, with `gain` and `loss` the rolling means of the
positive and negated-negative parts of the price delta, both nonnegative;
and every defined RSI value lies in [0, 100]. -/
theorem rsi_range (prices : List ℚ) (w i : ℕ) (r : ℚ)
    (h : calculate_rsi prices w i = some r) :
    0 ≤ r ∧ r ≤ 100 ∧
    ∃ g l, gain prices w i = some g ∧ loss prices w i = some l ∧
      0 ≤ g ∧ 0 ≤ l ∧ r = 100 - 100 / (1 + g / (l + 1 / 1000000000)) := by
  rw [calculate_rsi] at h
  cases hg : gain prices w i with
  | none => rw [hg] at h; exact absurd h (by simp)
  | some g =>
    cases hl : loss prices w i with
    | none => rw [hg, hl] at h; exact absurd h (by simp)
    | some l =>
      rw [hg, hl, Option.some.injEq] at h
      have hg0 : 0 ≤ g := rollingMean_nonneg _ w i g (gainIn_nonneg prices) hg
      have hl0 : 0 ≤ l := rollingMean_nonneg _ w i l (lossIn_nonneg prices) hl
      have hrs0 : 0 ≤ g / (l + 1 / 1000000000) :=
        div_nonneg hg0 (by linarith)
      have hb : (0 : ℚ) < 1 + g / (l + 1 / 1000000000) := by linarith
      have hup : 100 / (1 + g / (l + 1 / 1000000000)) ≤ 100 :=
        div_le_self (by norm_num) (by linarith)
      have hlo : 0 < 100 / (1 + g / (l + 1 / 1000000000)) :=
        div_pos (by norm_num) hb
      exact ⟨by rw [← h]; linarith, by rw [← h]; linarith,
        g, l, rfl, rfl, hg0, hl0, h.symm⟩

/-- C8 witness: on the one-day series `[1]` with window 1 the RSI is
defined and equals 0 (all gains and losses are 0). -/
theorem rsi_range_witness :
    calculate_rsi [1] 1 0 = some 0 ∧
    ((0 : ℚ) ≤ 0 ∧ (0 : ℚ) ≤ 100 ∧
      ∃ g l, gain [1] 1 0 = some g ∧ loss [1] 1 0 = some l ∧
        0 ≤ g ∧ 0 ≤ l ∧ (0 : ℚ) = 100 - 100 / (1 + g / (l + 1 / 1000000000))) :=
  ⟨by norm_num [calculate_rsi, gain, loss, rollingMean, gainIn, lossIn, close,
      delta, Finset.sum_range_succ],
   rsi_range [1] 1 0 0
     (by norm_num [calculate_rsi, gain, loss, rollingMean, gainIn, lossIn, close,
       delta, Finset.sum_range_succ])⟩

/-- An in-range entry of a constant price series is the constant. -/
theorem close_replicate (n j : ℕ) (v : ℚ) (h : j < n) :
    close (List.replicate n v) j = v := by
  simp [close, List.getD_eq_getElem?_getD, List.getElem?_replicate, h]

/-- The rolling mean of a constant price series is the constant wherever
it is defined. -/
theorem rollingMean_const (w i n : ℕ) (v : ℚ) (hw : 1 ≤ w) (hwi : w ≤ i + 1)
    (hn : i < n) :
    rollingMean (close (List.replicate n v)) w i = some v := by
  rw [rollingMean, if_pos ⟨hw, hwi⟩, Option.some.injEq]
  have hsum : ∑ j ∈ Finset.range w, close (List.replicate n v) (i + 1 - w + j) =
      (w : ℚ) * v := by
    rw [Finset.sum_congr rfl fun j hj =>
      close_replicate n (i + 1 - w + j) v (by
        have := Finset.mem_range.mp hj
        omega)]
    rw [Finset.sum_const, Finset.card_range, nsmul_eq_mul]
  rw [hsum]
  exact mul_div_cancel_left₀ v (Nat.cast_ne_zero.mpr (by omega))

/-- C9: each moving-average column is undefined for the first `window - 1`
indices, the materialized output over an empty price series is empty, and
over a constant price series every defined entry equals the constant. -/
theorem moving_average_ok (prices : List ℚ) (p : Params) (i n : ℕ) (v : ℚ)
    (hs : 1 ≤ p.short_p) (hl : 1 ≤ p.long_p) :
    (i + 1 < p.short_p → Short_MA prices p i = none) ∧
    (i + 1 < p.long_p → Long_MA prices p i = none) ∧
    seriesOf (List.length ([] : List ℚ)) (Short_MA ([] : List ℚ) p) = [] ∧
    (p.short_p ≤ i + 1 → i < n →
      Short_MA (List.replicate n v) p i = some v) ∧
    (p.long_p ≤ i + 1 → i < n →
      Long_MA (List.replicate n v) p i = some v) := by
  refine ⟨?_, ?_, rfl, ?_, ?_⟩
  · intro hlt
    rw [Short_MA, rollingMean, if_neg]
    omega
  · intro hlt
    rw [Long_MA, rollingMean, if_neg]
    omega
  · intro hwi hn
    exact rollingMean_const p.short_p i n v hs hwi hn
  · intro hwi hn
    exact rollingMean_const p.long_p i n v hl hwi hn

/-- C9 witness: constant series of value 7, default 5/20 windows, index 1
(inside both warm-ups) and the empty-series output. -/
theorem moving_average_ok_witness :
    1 ≤ pDef.short_p ∧ 1 ≤ pDef.long_p ∧
    ((1 + 1 < pDef.short_p → Short_MA (List.replicate 30 7) pDef 1 = none) ∧
      (1 + 1 < pDef.long_p → Long_MA (List.replicate 30 7) pDef 1 = none) ∧
      seriesOf (List.length ([] : List ℚ)) (Short_MA ([] : List ℚ) pDef) = [] ∧
      (pDef.short_p ≤ 1 + 1 → 1 < 30 →
        Short_MA (List.replicate 30 (7 : ℚ)) pDef 1 = some 7) ∧
      (pDef.long_p ≤ 1 + 1 → 1 < 30 →
        Long_MA (List.replicate 30 (7 : ℚ)) pDef 1 = some 7)) :=
  ⟨by norm_num [pDef], by norm_num [pDef],
   moving_average_ok (List.replicate 30 7) pDef 1 30 7
     (by norm_num [pDef]) (by norm_num [pDef])⟩

/-- C3 counterexample: a single-entry price series (fewer than 2 entries)
combined with `short_p ≥ long_p` and a negative cost rate passes the
`df.empty` guard and yields a full result — no failure occurs. -/
theorem run_backtest_cex : (run_backtest [100] pBad).isSome = true := rfl

/-- C3 amended: the pipeline produces no output exactly for an empty price
series (the `df.empty` guard, under which nothing at all is computed), and
on every nonempty series — for all parameter values, including
`short_p ≥ long_p` and a negative cost rate — it is total and returns every
derived column at the full length of the price series; there is no
parameter validation and no other failure path. -/
theorem run_backtest_total (prices : List ℚ) (p : Params) :
    (run_backtest prices p = none ↔ prices = []) ∧
    (run_backtest prices p).elim True (fun r =>
      r.short_ma.length = prices.length ∧ r.long_ma.length = prices.length ∧
      r.rsi.length = prices.length ∧ r.ma_signal.length = prices.length ∧
      r.signal.length = prices.length ∧ r.trade.length = prices.length ∧
      r.market_ret.length = prices.length ∧ r.strat_ret.length = prices.length ∧
      r.acc_strat.length = prices.length ∧ r.acc_market.length = prices.length ∧
      r.peak.length = prices.length ∧ r.dd.length = prices.length) := by
  cases prices with
  | nil => exact ⟨by simp [run_backtest], by simp [run_backtest]⟩
  | cons a as =>
    refine ⟨by simp [run_backtest], ?_⟩
    simp [run_backtest, seriesOf_length]

end Stock
